import Mathlib

/-!
Shallow embedding of the core of `gcectl` (a CLI wrapping a cloud compute
provider's instance-management API) together with proofs of the frozen
specification claims.

The embedding follows the Go sources:
  * `internal/domain/model/vm.go` — the `Status` enum, its string
    conversions, the `VM` entity and the `CanStart` / `CanStop` / `Uptime`
    operations;
  * `internal/usecase/start_vm.go` — the batch start orchestrator
    (`StartVMUseCase.Execute`) and the uptime formatter `formatUptime`;
  * `internal/infrastructure/config/config.go` — the config defaulting loop
    of `ParseConfig`;
  * the GCP repository implementation — `FindAll` and `waitOperator`;
  * the console presenter — `ExecuteWithProgress`.

Machine integers: Go `time.Duration` is an `int64` nanosecond count and
`time.Time` subtraction is exact for all realistic timestamps; durations and
times are embedded as unbounded `Int` nanoseconds (overflow saturation of
`time.Sub` at ±2⁶³ns ≈ ±292 years is outside every claim's scope).
Concurrency (errgroup fan-out) is embedded by quantifying over the
completion order of the concurrent units: `errgroup.Wait` keeps exactly the
first non-nil error in completion order, which is the `egWait` fold below.
-/

namespace Gcectl

/-- `Status` from `internal/domain/model/vm.go`: the operational state of a
VM.  Go declares it as an `int` with five `iota` constants; the set is
closed, so it is embedded as an inductive. -/
inductive Status where
  | StatusUnknown
  | StatusRunning
  | StatusStopped
  | StatusTerminated
  | StatusProvisioning
deriving DecidableEq, Repr

/-- `Status.String` from `vm.go` (the `fmt.Stringer` implementation):
an exhaustive switch with an `UNKNOWN` default. -/
def Status.string : Status → String
  | .StatusRunning => "RUNNING"
  | .StatusStopped => "STOPPED"
  | .StatusTerminated => "TERMINATED"
  | .StatusProvisioning => "PROVISIONING"
  | .StatusUnknown => "UNKNOWN"

/-- `StatusFromString` from `vm.go`: a switch on the four recognized
strings with a `StatusUnknown` default. -/
def StatusFromString (s : String) : Status :=
  if s = "RUNNING" then .StatusRunning
  else if s = "STOPPED" then .StatusStopped
  else if s = "TERMINATED" then .StatusTerminated
  else if s = "PROVISIONING" then .StatusProvisioning
  else .StatusUnknown

/-- `VM` from `vm.go`.  `LastStartTime *time.Time` is an optional
timestamp, embedded as `Option Int` (nanoseconds since the epoch). -/
structure VM where
  LastStartTime : Option Int
  Name : String
  Project : String
  Zone : String
  MachineType : String
  SchedulePolicy : String
  Status : Status
deriving DecidableEq, Repr

/-- `VM.CanStart` from `vm.go`: startable iff STOPPED or TERMINATED. -/
def VM.CanStart (v : VM) : Bool :=
  v.Status = Status.StatusStopped || v.Status = Status.StatusTerminated

/-- `VM.CanStop` from `vm.go`: stoppable iff RUNNING. -/
def VM.CanStop (v : VM) : Bool :=
  v.Status = Status.StatusRunning

/-- The two sentinel errors `ErrVMNotRunning` / `ErrNoStartTime`
declared at the bottom of `vm.go`. -/
inductive UptimeErr where
  | ErrVMNotRunning
  | ErrNoStartTime
deriving DecidableEq, Repr

/-- `VM.Uptime` from `vm.go`: guard on status, then on the presence of
`LastStartTime`, then return `now.Sub(*v.LastStartTime)` (exact
subtraction, no clamping). -/
def VM.Uptime (v : VM) (now : Int) : Except UptimeErr Int :=
  if v.Status ≠ Status.StatusRunning then .error .ErrVMNotRunning
  else
    match v.LastStartTime with
    | none => .error .ErrNoStartTime
    | some t => .ok (now - t)

end Gcectl

namespace Gcectl

/-- C4: over the closed five-member status enum, `CanStart` is true iff the
status is STOPPED or TERMINATED, and `CanStop` is true iff the status is
RUNNING; both are false for every other status value, for every VM. -/
theorem canStart_canStop_iff (v : VM) :
    (v.CanStart = true ↔ (v.Status = Status.StatusStopped ∨ v.Status = Status.StatusTerminated)) ∧
    (v.CanStop = true ↔ v.Status = Status.StatusRunning) := by
  cases h : v.Status <;> simp [VM.CanStart, VM.CanStop, h]

/-- A concrete RUNNING VM used by the example instantiations. -/
def vmRunningEx : VM :=
  { LastStartTime := some 30, Name := "vm1", Project := "p", Zone := "z",
    MachineType := "e2-medium", SchedulePolicy := "#NONE",
    Status := Status.StatusRunning }

/-- C5: `Uptime(now)` fails with `ErrVMNotRunning` whenever the status is
not RUNNING (regardless of `LastStartTime`), fails with `ErrNoStartTime`
when RUNNING with no start time, and otherwise returns exactly
`now - lastStartTime`, negative values included, with no error. -/
theorem uptime_spec (v : VM) (now : Int) :
    (v.Status ≠ Status.StatusRunning → v.Uptime now = .error .ErrVMNotRunning) ∧
    (v.Status = Status.StatusRunning → v.LastStartTime = none →
      v.Uptime now = .error .ErrNoStartTime) ∧
    (∀ t : Int, v.Status = Status.StatusRunning → v.LastStartTime = some t →
      v.Uptime now = .ok (now - t)) := by
  refine ⟨fun h => ?_, fun h hnone => ?_, fun t h hsome => ?_⟩
  · simp [VM.Uptime, h]
  · simp [VM.Uptime, h, hnone]
  · simp [VM.Uptime, h, hsome]

/-- C5 instantiation: a RUNNING VM whose clock-skewed start time lies after
`now` yields a negative uptime, passed through as-is. -/
theorem uptime_spec_witness : vmRunningEx.Uptime 10 = .ok (-20) :=
  (uptime_spec vmRunningEx 10).2.2 30 rfl rfl

/-- C9: status/string conversion round-trips over the whole enum (UNKNOWN
included, via the fallback branch), and every unrecognized string degrades
to `StatusUnknown` rather than failing. -/
theorem status_string_roundtrip :
    (∀ s : Status, StatusFromString s.string = s) ∧
    (∀ str : String, str ≠ "RUNNING" → str ≠ "STOPPED" → str ≠ "TERMINATED" →
      str ≠ "PROVISIONING" → StatusFromString str = Status.StatusUnknown) := by
  refine ⟨fun s => ?_, fun str h1 h2 h3 h4 => ?_⟩
  · cases s <;> rfl
  · simp [StatusFromString, h1, h2, h3, h4]

/-- C9 instantiation: the unrecognized provider string "REPAIRING" maps to
`StatusUnknown`. -/
theorem status_string_roundtrip_witness : StatusFromString "REPAIRING" = Status.StatusUnknown :=
  status_string_roundtrip.2 "REPAIRING" (by decide) (by decide) (by decide) (by decide)

/-! ## Batch start orchestrator (`internal/usecase/start_vm.go`, batch version)

`StartVMUseCase.Execute(ctx, vms)` spawns one errgroup goroutine per VM.
The repository dependency is embedded as a record of response functions:
Go's `(vm *model.VM, err error)` pair becomes `Option VM × Option String`
(nil pointers and nil errors become `none`). -/

/-- The `repository.VMRepository` operations consumed by the batch
orchestrator, as abstract response functions. -/
structure VMRepo where
  findByName : VM → Option VM × Option String
  start : VM → Option String

/-- The body of one per-VM goroutine of the batch
`StartVMUseCase.Execute`: find, nil-check, `CanStart` check, then
`Start`, returning the error of the first failing step (`none` on
success).  The error strings are exactly the Go `fmt.Errorf` formats. -/
def startUnit (repo : VMRepo) (vm : VM) : Option String :=
  match repo.findByName vm with
  | (_, some e) => some ("VM " ++ vm.Name ++ ": failed to find: " ++ e)
  | (none, none) => some ("VM " ++ vm.Name ++ ": not found")
  | (some foundVM, none) =>
    if !foundVM.CanStart then
      some ("VM " ++ foundVM.Name ++ ": cannot be started (current status: "
        ++ foundVM.Status.string ++ ")")
    else
      match repo.start foundVM with
      | some e => some ("VM " ++ foundVM.Name ++ ": failed to start: " ++ e)
      | none => none

/-- `errgroup.Wait`: the goroutine results arrive in completion order and
the group keeps exactly the first non-nil error (a `sync.Once` inside
`errgroup`); later errors are discarded. -/
def egWait : List (Option String) → Option String
  | [] => none
  | some e :: _ => some e
  | none :: rest => egWait rest

/-- The batch `Execute`, as seen through a completion order: `completion`
is the order in which the per-VM goroutines finished (a permutation of the
input list) and `beh v` is the result goroutine `v` actually returned —
equal to `startUnit repo v` unless the unit observed cancellation after a
sibling's failure. -/
def ExecuteBatch (completion : List VM) (beh : VM → Option String) : Option String :=
  egWait (completion.map beh)

/-- The units whose goroutine completed without error, i.e. whose
`repo.Start` call succeeded and whose effect persists (there is no
rollback anywhere in `Execute`). -/
def startedVMs (completion : List VM) (beh : VM → Option String) : List VM :=
  completion.filter (fun v => beh v = none)

/-- C1: each per-VM unit checks in fixed order — find error, nil VM,
`CanStart` on the fetched VM, `Start` error — and returns the first
failing check's message verbatim, for every VM reference and every
repository response. -/
theorem startUnit_spec (repo : VMRepo) (vm : VM) :
    (∀ r e, repo.findByName vm = (r, some e) →
      startUnit repo vm = some ("VM " ++ vm.Name ++ ": failed to find: " ++ e)) ∧
    (repo.findByName vm = (none, none) →
      startUnit repo vm = some ("VM " ++ vm.Name ++ ": not found")) ∧
    (∀ f, repo.findByName vm = (some f, none) → f.CanStart = false →
      startUnit repo vm = some ("VM " ++ f.Name ++ ": cannot be started (current status: "
        ++ f.Status.string ++ ")")) ∧
    (∀ f e, repo.findByName vm = (some f, none) → f.CanStart = true → repo.start f = some e →
      startUnit repo vm = some ("VM " ++ f.Name ++ ": failed to start: " ++ e)) ∧
    (∀ f, repo.findByName vm = (some f, none) → f.CanStart = true → repo.start f = none →
      startUnit repo vm = none) := by
  refine ⟨fun r e h => ?_, fun h => ?_, fun f h hc => ?_, fun f e h hc hs => ?_,
    fun f h hc hs => ?_⟩
  · simp [startUnit, h]
  · simp [startUnit, h]
  · simp [startUnit, h, hc]
  · simp [startUnit, h, hc, hs]
  · simp [startUnit, h, hc, hs]

/-- A repository response where every lookup reports "instance missing". -/
def repoNotFoundEx : VMRepo :=
  { findByName := fun _ => (none, none), start := fun _ => none }

/-- C1 instantiation: a lookup that comes back `(nil, nil)` yields the
"not found" message for the requested name. -/
theorem startUnit_spec_witness :
    startUnit repoNotFoundEx vmRunningEx = some "VM vm1: not found" := by
  have h := (startUnit_spec repoNotFoundEx vmRunningEx).2.1 rfl
  exact h.trans (by decide)

/-- Prepending all-`none` results does not change `egWait`. -/
theorem egWait_append_none (l1 l2 : List (Option String)) (h : ∀ o ∈ l1, o = none) :
    egWait (l1 ++ l2) = egWait l2 := by
  induction l1 with
  | nil => rfl
  | cons o rest ih =>
    have ho : o = none := h o (by simp)
    subst ho
    simpa [egWait] using ih (fun o hmem => h o (by simp [hmem]))

/-- C2: the batch orchestrator is fail-fast with first-error-wins.  If
every unit succeeds the call returns `none`; if the first failing unit in
completion order fails with `e`, the call returns exactly `some e` — one
single error, regardless of what the post-failure (possibly cancelled)
units return — and every unit that completed successfully before the
failure keeps its effect (no rollback). -/
theorem executeBatch_failfast (repo : VMRepo) (vms completion : List VM)
    (beh : VM → Option String) :
    (completion.Perm vms → vms ≠ [] →
      (∀ v ∈ completion, beh v = startUnit repo v) →
      (∀ v ∈ vms, startUnit repo v = none) →
      ExecuteBatch completion beh = none) ∧
    (∀ pre fail post e, completion = pre ++ fail :: post →
      (∀ v ∈ pre, beh v = startUnit repo v ∧ startUnit repo v = none) →
      beh fail = startUnit repo fail → startUnit repo fail = some e →
      ExecuteBatch completion beh = some e ∧
        ∀ v ∈ pre, v ∈ startedVMs completion beh) := by
  constructor
  · intro hperm _ hbeh hok
    have hall : ∀ o ∈ completion.map beh, o = none := by
      intro o ho
      rcases List.mem_map.mp ho with ⟨v, hv, rfl⟩
      rw [hbeh v hv]
      exact hok v (hperm.mem_iff.mp hv)
    have := egWait_append_none (completion.map beh) [] hall
    simpa [ExecuteBatch] using this
  · intro pre fail post e hcomp hpre hbfail hfail
    subst hcomp
    constructor
    · have hprenone : ∀ o ∈ pre.map beh, o = none := by
        intro o ho
        rcases List.mem_map.mp ho with ⟨v, hv, rfl⟩
        rw [(hpre v hv).1]
        exact (hpre v hv).2
      calc ExecuteBatch (pre ++ fail :: post) beh
          = egWait (pre.map beh ++ beh fail :: post.map beh) := by
            simp [ExecuteBatch]
        _ = egWait (beh fail :: post.map beh) := egWait_append_none _ _ hprenone
        _ = some e := by rw [hbfail, hfail]; rfl
    · intro v hv
      have hnone : beh v = none := by rw [(hpre v hv).1]; exact (hpre v hv).2
      have hvmem : v ∈ pre ++ fail :: post := List.mem_append_left _ hv
      simp only [startedVMs, List.mem_filter]
      exact ⟨hvmem, by simp [hnone]⟩

/-- A STOPPED VM, startable. -/
def vmStoppedEx : VM :=
  { LastStartTime := none, Name := "vm2", Project := "p", Zone := "z",
    MachineType := "e2-medium", SchedulePolicy := "#NONE",
    Status := Status.StatusStopped }

/-- A repository response that finds every VM as-is and starts it
successfully. -/
def repoOkEx : VMRepo :=
  { findByName := fun v => (some v, none), start := fun _ => none }

/-- A repository response where the lookup of `vm2` succeeds but every
other lookup comes back `(nil, nil)`. -/
def repoMixedEx : VMRepo :=
  { findByName := fun v => if v.Name = "vm2" then (some v, none) else (none, none),
    start := fun _ => none }

/-- C2 instantiation: an all-success batch returns `none`; a batch whose
second-completing unit fails returns exactly that unit's error while the
first (successful) unit's effect is kept. -/
theorem executeBatch_failfast_witness :
    ExecuteBatch [vmStoppedEx] (startUnit repoOkEx) = none ∧
    ExecuteBatch [vmStoppedEx, vmRunningEx] (startUnit repoMixedEx) = some "VM vm1: not found" ∧
    vmStoppedEx ∈ startedVMs [vmStoppedEx, vmRunningEx] (startUnit repoMixedEx) := by
  refine ⟨?_, ?_, ?_⟩
  · exact (executeBatch_failfast repoOkEx [vmStoppedEx] [vmStoppedEx]
      (startUnit repoOkEx)).1 (List.Perm.refl _) (by simp)
      (fun v _ => rfl) (by intro v hv; simp at hv; subst hv; decide)
  · have h := (executeBatch_failfast repoMixedEx [vmStoppedEx, vmRunningEx]
      [vmStoppedEx, vmRunningEx] (startUnit repoMixedEx)).2 [vmStoppedEx] vmRunningEx []
      "VM vm1: not found" rfl
      (by intro v hv; simp at hv; subst hv; exact ⟨rfl, by decide⟩)
      rfl (by decide)
    exact h.1
  · have h := (executeBatch_failfast repoMixedEx [vmStoppedEx, vmRunningEx]
      [vmStoppedEx, vmRunningEx] (startUnit repoMixedEx)).2 [vmStoppedEx] vmRunningEx []
      "VM vm1: not found" rfl
      (by intro v hv; simp at hv; subst hv; exact ⟨rfl, by decide⟩)
      rfl (by decide)
    exact h.2 vmStoppedEx (by simp)

/-! ## Configuration (`internal/infrastructure/config/config.go`)

File I/O and YAML unmarshaling are external collaborators; the embedding
starts at the unmarshaled `yamlConfig` value and models the conversion
loop of `ParseConfig` (defaulting of per-entry project/zone). -/

/-- `Config` from `config.go`. -/
structure Config where
  DefaultProject : String
  DefaultZone : String
  VMs : List VM

/-- `yamlVM` from `config.go`: one `vm:` entry as unmarshaled. -/
structure YamlVM where
  Name : String
  Project : String
  Zone : String

/-- `yamlConfig` from `config.go`: the unmarshaled file. -/
structure YamlConfig where
  DefaultProject : String
  DefaultZone : String
  VMs : List YamlVM

/-- The loop body of `ParseConfig`: build a `model.VM` from a `yamlVM`,
substituting the top-level defaults for an empty project or zone field
(independently per field).  The remaining `model.VM` fields are left at
their Go zero values, as in the source. -/
def convertYamlVM (yml : YamlConfig) (v : YamlVM) : VM :=
  { Name := v.Name,
    Project := if v.Project = "" then yml.DefaultProject else v.Project,
    Zone := if v.Zone = "" then yml.DefaultZone else v.Zone,
    LastStartTime := none, MachineType := "", SchedulePolicy := "",
    Status := Status.StatusUnknown }

/-- The conversion part of `ParseConfig` (after a successful read and
unmarshal): copy the defaults and map the conversion over the entries in
order. -/
def parseConfigVMs (yml : YamlConfig) : Config :=
  { DefaultProject := yml.DefaultProject, DefaultZone := yml.DefaultZone,
    VMs := yml.VMs.map (convertYamlVM yml) }

/-- C8: `ParseConfig` maps the entry list in order; per entry, an empty
project inherits `default-project` and an empty zone inherits
`default-zone`, independently per field, and the name is never
defaulted. -/
theorem parseConfig_defaulting (yml : YamlConfig) :
    (parseConfigVMs yml).VMs = yml.VMs.map (convertYamlVM yml) ∧
    ∀ v ∈ yml.VMs,
      (convertYamlVM yml v).Name = v.Name ∧
      (v.Project = "" → (convertYamlVM yml v).Project = yml.DefaultProject) ∧
      (v.Project ≠ "" → (convertYamlVM yml v).Project = v.Project) ∧
      (v.Zone = "" → (convertYamlVM yml v).Zone = yml.DefaultZone) ∧
      (v.Zone ≠ "" → (convertYamlVM yml v).Zone = v.Zone) := by
  refine ⟨rfl, fun v _ => ⟨rfl, fun hp => ?_, fun hp => ?_, fun hz => ?_, fun hz => ?_⟩⟩
  · simp [convertYamlVM, hp]
  · simp [convertYamlVM, hp]
  · simp [convertYamlVM, hz]
  · simp [convertYamlVM, hz]

/-- An entry with an explicit zone and no project. -/
def yvmEx : YamlVM := { Name := "a", Project := "", Zone := "z1" }

/-- A config whose single entry has an explicit zone but no project. -/
def ymlEx : YamlConfig := { DefaultProject := "dp", DefaultZone := "dz", VMs := [yvmEx] }

/-- C8 instantiation: the entry inherits `default-project` while keeping
its explicit zone and its name. -/
theorem parseConfig_defaulting_witness :
    (convertYamlVM ymlEx yvmEx).Name = "a" ∧
    (convertYamlVM ymlEx yvmEx).Project = "dp" ∧
    (convertYamlVM ymlEx yvmEx).Zone = "z1" := by
  have h := (parseConfig_defaulting ymlEx).2 yvmEx (by simp [ymlEx])
  exact ⟨h.1, h.2.1 rfl, h.2.2.2.2 (by decide)⟩

/-! ## `VMRepositoryImpl.FindAll` (GCP adapter)

`FindAll` loads the config, then fetches every configured VM in its own
errgroup goroutine.  Each goroutine returns nil unconditionally: a failed
fetch is logged and skipped, a successful fetch is sent on a channel.  The
channel is drained after `Wait`, so the resulting slice holds the
successful fetches in completion order (`completion` below). -/

/-- The log line `FindAll` emits for a VM whose fetch failed. -/
def findAllLogEntry (r : VM) (e : String) : String :=
  "failed to find VM " ++ r.Name ++ " in project " ++ r.Project ++
    " zone " ++ r.Zone ++ ": " ++ e

/-- `FindAll`, over the config-load result, the per-VM fetch oracle and
the goroutine completion order; returns the Go return value and the list
of emitted error-log lines. -/
def FindAll (parseRes : Except String Config) (find : VM → Except String VM)
    (completion : List VM) : Except String (List VM) × List String :=
  match parseRes with
  | .error e => (.error ("failed to load config: " ++ e), [])
  | .ok _ =>
    (.ok (completion.filterMap (fun r => (find r).toOption)),
     completion.filterMap (fun r =>
       match find r with
       | .error e => some (findAllLogEntry r e)
       | .ok _ => none))

/-- C3: `FindAll` is best-effort.  When the config parses, it returns a
nil error whatever the individual fetches did; the returned slice is
exactly (up to goroutine completion order) the successfully fetched VMs;
every failing VM is logged.  It returns a non-nil error only when the
config load itself fails. -/
theorem findAll_best_effort (parseRes : Except String Config)
    (find : VM → Except String VM) (completion : List VM) :
    (∀ cfg, parseRes = .ok cfg → completion.Perm cfg.VMs →
      (FindAll parseRes find completion).1 =
        .ok (completion.filterMap (fun r => (find r).toOption)) ∧
      (completion.filterMap (fun r => (find r).toOption)).Perm
        (cfg.VMs.filterMap (fun r => (find r).toOption)) ∧
      (∀ r e, r ∈ cfg.VMs → find r = .error e →
        findAllLogEntry r e ∈ (FindAll parseRes find completion).2)) ∧
    (∀ e, parseRes = .error e →
      (FindAll parseRes find completion).1 = .error ("failed to load config: " ++ e)) := by
  constructor
  · intro cfg hok hperm
    subst hok
    refine ⟨rfl, hperm.filterMap _, fun r e hr hfind => ?_⟩
    have hrc : r ∈ completion := hperm.mem_iff.mpr hr
    simp only [FindAll]
    exact List.mem_filterMap.mpr ⟨r, hrc, by rw [hfind]⟩
  · intro e herr
    subst herr
    rfl

/-- A fetch oracle that succeeds on STOPPED VMs and fails otherwise. -/
def findEx : VM → Except String VM :=
  fun v => if v.Status = Status.StatusStopped then .ok v else .error "boom"

/-- A parsed config listing the two example VMs. -/
def cfgEx : Config := { DefaultProject := "dp", DefaultZone := "dz",
                        VMs := [vmRunningEx, vmStoppedEx] }

/-- C3 instantiation: with one failing fetch, `FindAll` still returns
`.ok` holding exactly the successful VM, and logs the failing one. -/
theorem findAll_best_effort_witness :
    (FindAll (.ok cfgEx) findEx [vmRunningEx, vmStoppedEx]).1 = .ok [vmStoppedEx] ∧
    findAllLogEntry vmRunningEx "boom" ∈ (FindAll (.ok cfgEx) findEx [vmRunningEx, vmStoppedEx]).2 := by
  have h := (findAll_best_effort (.ok cfgEx) findEx [vmRunningEx, vmStoppedEx]).1 cfgEx rfl
    (by simp [cfgEx])
  refine ⟨h.1.trans (by rfl), h.2.2 vmRunningEx "boom" (by simp [cfgEx]) (by rfl)⟩

/-! ## `ConsolePresenter.ExecuteWithProgress` (presenter)

Two errgroup goroutines: the work unit returns `fn`'s error; the ticking
unit loops until either the context is cancelled or `doneCh` is closed,
returning nil on either exit.  `eg.Wait` keeps the first non-nil error in
completion order. -/

/-- Why the ticking loop of `ExecuteWithProgress` terminated: context
cancellation or `doneCh` closed by the finished work unit. -/
inductive TickStop where
  | ctxDone
  | workDone

/-- The ticking goroutine's return value for each exit of its select
loop: nil on both (`case <-ctx.Done(): return nil`,
`case <-doneCh: return nil`). -/
def progressTicker : TickStop → Option String
  | .ctxDone => none
  | .workDone => none

/-- `ExecuteWithProgress`, over the wrapped function's result, the reason
the ticking loop stopped, and the order in which the two goroutines
delivered their results to `eg.Wait`. -/
def ExecuteWithProgress (fnRes : Option String) (stop : TickStop)
    (tickerFirst : Bool) : Option String :=
  if tickerFirst then egWait [progressTicker stop, fnRes]
  else egWait [fnRes, progressTicker stop]

/-- C7: the ticking unit returns nil on both context cancellation and
work completion, and `ExecuteWithProgress` returns exactly the wrapped
function's result — nil when the work returned nil — for every stop
reason and every completion order: the ticker never replaces or masks the
work's result. -/
theorem executeWithProgress_transparent (fnRes : Option String) (stop : TickStop)
    (tickerFirst : Bool) :
    progressTicker stop = none ∧ ExecuteWithProgress fnRes stop tickerFirst = fnRes := by
  cases fnRes <;> cases stop <;> cases tickerFirst <;> exact ⟨rfl, rfl⟩

/-! ## `waitOperator` (GCP adapter)

`waitOperator(ctx, op)` first guards `op == nil`; only past that guard
does it create the errgroup, spawn the `op.Wait` goroutine (the provider
poll) and the dot-printing ticker.  The second component of the result
records whether those units were started (and hence whether the provider
was polled at all). -/

/-- An in-flight provider operation handle, carrying the outcome its
`Wait(ctx)` poll would report (`none` = completed successfully). -/
structure Operation where
  waitResult : Option String

/-- Why the dot-printing loop of `waitOperator` terminated. -/
inductive OpTickStop where
  | ctxDone (ctxErr : String)
  | opDone

/-- The `waitOperator` ticker's return value: the context's error on
cancellation, nil once the operation is done. -/
def opTicker : OpTickStop → Option String
  | .ctxDone e => some e
  | .opDone => none

/-- `waitOperator`: nil guard, then the errgroup pair (provider poll +
ticker), wrapping any group error as "failed to wait for operation". -/
def waitOperator (op : Option Operation) (stop : OpTickStop)
    (tickerFirst : Bool) : Option String × Bool :=
  match op with
  | none => (some "operation is nil", false)
  | some o =>
    let res := if tickerFirst then egWait [opTicker stop, o.waitResult]
               else egWait [o.waitResult, opTicker stop]
    (match res with
     | some e => some ("failed to wait for operation: " ++ e)
     | none => none, true)

/-- C10: a nil operation handle makes `waitOperator` return the
"operation is nil" error immediately: no goroutines are started and the
provider is never polled (second component `false`), for every ticker
behavior and completion order. -/
theorem waitOperator_nil_total (stop : OpTickStop) (tickerFirst : Bool) :
    waitOperator none stop tickerFirst = (some "operation is nil", false) := rfl

/-! ## Uptime formatter (`formatUptime` in `internal/usecase/vm_uptime.go`)

Durations are `Int` nanoseconds.  `d.Round(time.Second)` rounds to the
nearest whole second, ties away from zero.  Go's `int(d.Hours())`,
`int(d.Minutes())`, `int(d.Seconds())` truncate toward zero, i.e. are
`Int.tdiv` by 3600e9 / 60e9 / 1e9, and Go's `%` is `Int.tmod`. -/

/-- `time.Duration.Round(time.Second)` from the Go standard library as
used by `formatUptime`: round to the nearest multiple of 10⁹ns, ties away
from zero (the `lessThanHalf` branch structure of `Duration.Round`;
its int64-overflow clamp is out of modelled range). -/
def roundToSecond (d : Int) : Int :=
  let r := d.tmod 1000000000
  if 2 * r.natAbs < 1000000000 then d - r
  else if d < 0 then d - r - 1000000000 else d - r + 1000000000

/-- `formatUptime` from `vm_uptime.go`: round to seconds, split into
days/hours/minutes/seconds with truncating conversions, then emit one of
the four tier formats. -/
def formatUptime (d : Int) : String :=
  let t := roundToSecond d
  let hoursTot := t.tdiv 3600000000000
  let days := hoursTot.tdiv 24
  let hours := hoursTot.tmod 24
  let minutes := (t.tdiv 60000000000).tmod 60
  let seconds := (t.tdiv 1000000000).tmod 60
  if days > 0 then toString days ++ "d" ++ toString hours ++ "h" ++ toString minutes ++ "m"
  else if hours > 0 then toString hours ++ "h" ++ toString minutes ++ "m"
  else if minutes > 0 then toString minutes ++ "m" ++ toString seconds ++ "s"
  else toString seconds ++ "s"

/-- Modelled from the claim's words: "rounds d to the nearest whole
second (half away from zero)", as a count of whole seconds. -/
def roundSecondsSpec (d : Int) : Int :=
  if d < 0 then -((-d + 500000000).tdiv 1000000000)
  else (d + 500000000).tdiv 1000000000

/-- Modelled from the claim's words, literally: strict tiering over the
whole-second count `s`, where `days`/`hours`/`minutes` are the whole-unit
counts and the final tier renders "{seconds}s" with the TOTAL seconds
(the claim writes the `%` reductions explicitly in the other tiers and
writes none here). -/
def claimTiering (s : Int) : String :=
  let m := s.tdiv 60
  let h := s.tdiv 3600
  let days := h.tdiv 24
  if days > 0 then toString days ++ "d" ++ toString (h.tmod 24) ++ "h" ++ toString (m.tmod 60) ++ "m"
  else if h > 0 then toString h ++ "h" ++ toString (m.tmod 60) ++ "m"
  else if m > 0 then toString m ++ "m" ++ toString (s.tmod 60) ++ "s"
  else toString s ++ "s"

/-- The claim's tiering with the one amendment the counterexample forces:
the final tier renders `seconds % 60` (which coincides with the total
seconds for every nonnegative duration). -/
def claimTieringAmended (s : Int) : String :=
  let m := s.tdiv 60
  let h := s.tdiv 3600
  let days := h.tdiv 24
  if days > 0 then toString days ++ "d" ++ toString (h.tmod 24) ++ "h" ++ toString (m.tmod 60) ++ "m"
  else if h > 0 then toString h ++ "h" ++ toString (m.tmod 60) ++ "m"
  else if m > 0 then toString m ++ "m" ++ toString (s.tmod 60) ++ "s"
  else toString (s.tmod 60) ++ "s"

/-- The C6 claim as stated, end to end. -/
def formatUptimeClaim (d : Int) : String := claimTiering (roundSecondsSpec d)

/-- The amended C6 claim, end to end. -/
def formatUptimeClaimAmended (d : Int) : String := claimTieringAmended (roundSecondsSpec d)

/-- The code's tiering re-expressed over the whole-second count (proof
intermediate between `formatUptime` and the claim's tiering). -/
def secondsTiering (s : Int) : String :=
  let h := s.tdiv 3600
  let days := h.tdiv 24
  let hours := h.tmod 24
  let minutes := (s.tdiv 60).tmod 60
  let seconds := s.tmod 60
  if days > 0 then toString days ++ "d" ++ toString hours ++ "h" ++ toString minutes ++ "m"
  else if hours > 0 then toString hours ++ "h" ++ toString minutes ++ "m"
  else if minutes > 0 then toString minutes ++ "m" ++ toString seconds ++ "s"
  else toString seconds ++ "s"

/-- T-mod negates with its dividend. -/
theorem neg_tmod_eq (a b : Int) : (-a).tmod b = -(a.tmod b) := by
  rw [Int.tmod_def, Int.tmod_def, Int.neg_tdiv]; ring

/-- T-mod through E-mod, by sign of the dividend. -/
theorem tmod_as_emod (a b : Int) (hb : 0 ≤ b) :
    a.tmod b = if 0 ≤ a then a % b else -(-a % b) := by
  split_ifs with h
  · exact Int.tmod_eq_emod h hb
  · have h2 : (0:Int) ≤ -a := by omega
    calc a.tmod b = (-(-a)).tmod b := by rw [neg_neg]
      _ = -((-a).tmod b) := neg_tmod_eq _ _
      _ = -(-a % b) := by rw [Int.tmod_eq_emod h2 hb]

/-- T-div through E-div, by sign of the dividend. -/
theorem tdiv_as_ediv (a b : Int) (hb : 0 ≤ b) :
    a.tdiv b = if 0 ≤ a then a / b else -(-a / b) := by
  split_ifs with h
  · exact Int.tdiv_eq_ediv h hb
  · have h2 : (0:Int) ≤ -a := by omega
    calc a.tdiv b = (-(-a)).tdiv b := by rw [neg_neg]
      _ = -((-a).tdiv b) := Int.neg_tdiv _ _
      _ = -(-a / b) := by rw [Int.tdiv_eq_ediv h2 hb]

/-- `Duration.Round(time.Second)` agrees with the claim's "nearest whole
second, half away from zero". -/
theorem roundToSecond_eq (d : Int) : roundToSecond d = 1000000000 * roundSecondsSpec d := by
  simp only [roundToSecond, roundSecondsSpec]
  rw [tmod_as_emod d 1000000000 (by norm_num)]
  rcases le_or_lt 0 d with hd | hd
  · rw [if_pos hd, if_neg (by omega : ¬ d < 0), if_neg (by omega : ¬ d < 0),
      Int.tdiv_eq_ediv (by omega) (by norm_num)]
    split_ifs <;> omega
  · rw [if_neg (by omega : ¬ (0:Int) ≤ d), if_pos hd, if_pos hd,
      Int.tdiv_eq_ediv (by omega) (by norm_num)]
    split_ifs <;> omega

/-- T-division cancels a common positive left factor. -/
theorem mul_tdiv_mul (a b c : Int) (ha : 0 < a) (hc : 0 ≤ c) :
    (a * b).tdiv (a * c) = b.tdiv c := by
  rcases le_or_lt 0 b with hb | hb
  · rw [Int.tdiv_eq_ediv (mul_nonneg ha.le hb) (mul_nonneg ha.le hc), Int.tdiv_eq_ediv hb hc,
      Int.mul_ediv_mul_of_pos _ _ ha]
  · have e : (a * -b).tdiv (a * c) = (-b).tdiv c := by
      rw [Int.tdiv_eq_ediv (mul_nonneg ha.le (by omega)) (mul_nonneg ha.le hc),
        Int.tdiv_eq_ediv (by omega) hc, Int.mul_ediv_mul_of_pos _ _ ha]
    calc (a * b).tdiv (a * c) = (-(a * -b)).tdiv (a * c) := by
          rw [show a * b = -(a * -b) from by ring]
      _ = -((a * -b).tdiv (a * c)) := Int.neg_tdiv _ _
      _ = -((-b).tdiv c) := by rw [e]
      _ = b.tdiv c := by rw [← Int.neg_tdiv, neg_neg]

/-- `formatUptime` factors through the whole-second count. -/
theorem formatUptime_as_tiering (d : Int) :
    formatUptime d = secondsTiering (roundSecondsSpec d) := by
  simp only [formatUptime, secondsTiering]
  rw [roundToSecond_eq]
  rw [show (3600000000000:Int) = 1000000000 * 3600 from by norm_num,
    show (60000000000:Int) = 1000000000 * 60 from by norm_num,
    mul_tdiv_mul _ _ _ (by norm_num) (by norm_num),
    mul_tdiv_mul _ _ _ (by norm_num) (by norm_num),
    Int.mul_tdiv_cancel_left _ (by norm_num)]

/-- The code's tiering equals the amended claim's tiering on every
whole-second count (positive or negative). -/
theorem tiering_eq (s : Int) : secondsTiering s = claimTieringAmended s := by
  simp only [secondsTiering, claimTieringAmended]
  rcases le_or_lt 0 s with hs | hs
  · have h3600 : s.tdiv 3600 = s / 3600 := Int.tdiv_eq_ediv hs (by norm_num)
    have h60 : s.tdiv 60 = s / 60 := Int.tdiv_eq_ediv hs (by norm_num)
    have hd24 : (s / 3600).tdiv 24 = s / 3600 / 24 :=
      Int.tdiv_eq_ediv (Int.ediv_nonneg hs (by norm_num)) (by norm_num)
    have hm24 : (s / 3600).tmod 24 = s / 3600 % 24 :=
      Int.tmod_eq_emod (Int.ediv_nonneg hs (by norm_num)) (by norm_num)
    have hm60 : (s / 60).tmod 60 = s / 60 % 60 :=
      Int.tmod_eq_emod (Int.ediv_nonneg hs (by norm_num)) (by norm_num)
    have hs60 : s.tmod 60 = s % 60 := Int.tmod_eq_emod hs (by norm_num)
    rw [h3600, h60, hd24, hm24, hm60, hs60]
    split_ifs <;> first
      | rfl
      | omega
      | (rw [show s / 3600 % 24 = s / 3600 from by omega])
      | (rw [show s / 60 % 60 = s / 60 from by omega])
  · have h1 : s.tdiv 3600 ≤ 0 := by
      rw [tdiv_as_ediv _ _ (by norm_num : (0:Int) ≤ 3600)]
      split_ifs <;> omega
    have h1b : s.tdiv 60 ≤ 0 := by
      rw [tdiv_as_ediv _ _ (by norm_num : (0:Int) ≤ 60)]
      split_ifs <;> omega
    have h2 : (s.tdiv 3600).tdiv 24 ≤ 0 := by
      rw [tdiv_as_ediv _ _ (by norm_num : (0:Int) ≤ 24)]
      split_ifs <;> omega
    have h3 : (s.tdiv 3600).tmod 24 ≤ 0 := by
      rw [tmod_as_emod _ _ (by norm_num : (0:Int) ≤ 24)]
      split_ifs <;> omega
    have h4 : (s.tdiv 60).tmod 60 ≤ 0 := by
      rw [tmod_as_emod _ _ (by norm_num : (0:Int) ≤ 60)]
      split_ifs <;> omega
    rw [if_neg (by omega : ¬ (s.tdiv 3600).tdiv 24 > 0),
      if_neg (by omega : ¬ (s.tdiv 3600).tmod 24 > 0),
      if_neg (by omega : ¬ s.tdiv 3600 > 0),
      if_neg (by omega : ¬ (s.tdiv 60).tmod 60 > 0),
      if_neg (by omega : ¬ s.tdiv 60 > 0),
      if_neg (by omega : ¬ (s.tdiv 3600).tdiv 24 > 0)]

/-- C6 counterexample: at d = −90s (a negative uptime, reachable under
clock skew per C5), the code prints the seconds field modulo 60
("-30s"), not the total seconds the claim's literal final tier gives
("-90s"). -/
theorem formatUptime_claim_counterexample :
    formatUptime (-90000000000) = "-30s" ∧
    formatUptimeClaim (-90000000000) = "-90s" ∧
    formatUptime (-90000000000) ≠ formatUptimeClaim (-90000000000) := by
  refine ⟨by decide, by decide, by decide⟩

/-- C6 amended: after rounding to the nearest whole second (half away
from zero), `formatUptime` renders by the claim's strict tiering with the
final tier printing `seconds % 60` (equal to the total seconds whenever
the duration is nonnegative); all the claim's cited examples hold. -/
theorem formatUptime_spec :
    (∀ d : Int, formatUptime d = formatUptimeClaimAmended d) ∧
    formatUptime 0 = "0s" ∧
    formatUptime 9015000000000 = "2h30m" ∧
    formatUptime 86400000000000 = "1d0h0m" ∧
    formatUptime 650700000000000 = "7d12h45m" ∧
    formatUptime 65600000000 = "1m6s" ∧
    formatUptime 65400000000 = "1m5s" :=
  ⟨fun d => (formatUptime_as_tiering d).trans (tiering_eq (roundSecondsSpec d)),
    by decide, by decide, by decide, by decide, by decide, by decide⟩

end Gcectl
